import Mathlib

/-!
Verification of the notion_to_md block-tree conversion engine
(`src/notion_to_md.py`, class `NotionToMarkdown`) against its
natural-language specification.

The Python code operates on JSON-like dictionaries.  We embed those values
as the inductive type `Val`, with Python truthiness (`pyTruthy`) and
`dict.get` (`vGet`) made explicit.  The `utils` package of the repository
(primitive Markdown formatters `md.*`, the fetch collaborator
`notion.get_block_children`, the rich-text styler `annotate_plain_text`
and `ConfigurationOptions`) is not part of the provided sources; those
pieces are modelled from the specification and marked as such.
-/

set_option autoImplicit false

namespace NotionToMd

/-- JSON-like value as manipulated by the Python source: `None`, booleans,
strings, lists and (insertion-ordered) string-keyed dictionaries. -/
inductive Val where
  | vnull : Val
  | vbool : Bool → Val
  | vstr : String → Val
  | vlist : List Val → Val
  | vdict : List (String × Val) → Val
deriving Inhabited

/-- Python truthiness of a value: `None` is falsy, a collection or string is
truthy exactly when non-empty. -/
def pyTruthy : Val → Bool
  | .vnull => false
  | .vbool b => b
  | .vstr s => !s.isEmpty
  | .vlist xs => !xs.isEmpty
  | .vdict kvs => !kvs.isEmpty

/-- Rendering of a value as a string, as Python `str()` would perform inside
an f-string.  Container reprs are abbreviated placeholders: no claim of the
specification observes the interpolation of a non-string value. -/
def pyStr : Val → String
  | .vnull => "None"
  | .vbool true => "True"
  | .vbool false => "False"
  | .vstr s => s
  | .vlist _ => "[...]"
  | .vdict _ => "\x7b...\x7d"

/-- Lookup of a key in a dictionary value, `None` when absent or when the
value is not a dictionary (Python `d.get(k)`). -/
def vGet : Val → String → Val
  | .vdict kvs, k =>
    match kvs.find? (fun kv => kv.1 == k) with
    | some kv => kv.2
    | none => .vnull
  | _, _ => .vnull

/-- Python `d.get(k, default)`. -/
def vGetD (v : Val) (k : String) (dflt : Val) : Val :=
  match v with
  | .vdict kvs =>
    match kvs.find? (fun kv => kv.1 == k) with
    | some kv => kv.2
    | none => dflt
  | _ => dflt

/-- Python `k in d` on a dictionary value. -/
def dictHasKey : Val → String → Bool
  | .vdict kvs, k => kvs.any (fun kv => kv.1 == k)
  | _, _ => false

/-- Python `isinstance(v, dict)`. -/
def isVDict : Val → Bool
  | .vdict _ => true
  | _ => false

/-- Python `v == s` for a string literal `s`: only a string value can
compare equal. -/
def typeEq (v : Val) (s : String) : Bool :=
  match v with
  | .vstr t => t == s
  | _ => false

/-- Extract the list of elements of a list value (empty otherwise). -/
def vItems : Val → List Val
  | .vlist xs => xs
  | _ => []

/-- String extraction: the string itself for a string value, its `str()`
rendering otherwise. -/
def strOf (v : Val) : String := pyStr v

/-! ## The document map (Python `Dict[str, str]` with insertion order) -/

/-- Output of the assembler: insertion-ordered map from document identifier
to accumulated Markdown text, embedded as an association list without
duplicate keys. -/
def DocMap := List (String × String)

instance : Inhabited DocMap := ⟨([] : List (String × String))⟩

/-- First binding of a key (Python `m.get(k)` when present). -/
def dGet : DocMap → String → Option String
  | [], _ => none
  | (k', v) :: rest, k => if k' == k then some v else dGet rest k

/-- Python `m.get(k, dflt)`. -/
def dGetD (m : DocMap) (k : String) (dflt : String) : String :=
  (dGet m k).getD dflt

/-- Python `k in m`. -/
def dHasKey (m : DocMap) (k : String) : Bool :=
  (dGet m k).isSome

/-- Python `m[k] = v`: replace in place when the key exists, append the new
binding at the end otherwise. -/
def dSet : DocMap → String → String → DocMap
  | [], k, v => [(k, v)]
  | (k', v') :: rest, k, v =>
    if k' == k then (k, v) :: rest else (k', v') :: dSet rest k v

/-- The idiom `m[k] = m.get(k, "")` of the source: make sure the key is
bound, to the empty string when previously absent. -/
def dEnsure (m : DocMap) (k : String) : DocMap :=
  dSet m k (dGetD m k "")

/-- The idiom `m[k] = m.get(k, "") + s` of the source: append to a key's
text, creating the binding when absent. -/
def dAppend (m : DocMap) (k : String) (s : String) : DocMap :=
  dSet m k (dGetD m k "" ++ s)

/-- Python `m.update(other)`: set every binding of `other` in `m`,
replacing existing values. -/
def dUpdate (m other : DocMap) : DocMap :=
  other.foldl (fun acc kv => dSet acc kv.1 kv.2) m

/-! ## Python string helpers used by the source -/

/-- Whitespace characters stripped by Python `str.strip()`. -/
def isPyWS (c : Char) : Bool :=
  c == ' ' || c == '\t' || c == '\n' || c == '\r' || c == '\x0b' || c == '\x0c'

/-- Python `str.strip()`: remove leading and trailing whitespace. -/
def pyStrip (s : String) : String :=
  String.mk (((s.data.dropWhile isPyWS).reverse.dropWhile isPyWS).reverse)

/-- Python `s.split("\n")` on the character list. -/
def splitNlChars : List Char → List (List Char)
  | [] => [[]]
  | c :: cs =>
    if c == '\n' then [] :: splitNlChars cs
    else
      match splitNlChars cs with
      | h :: t => (c :: h) :: t
      | [] => [[c]]

/-- Python `s.split("\n")`. -/
def pySplitNl (s : String) : List String :=
  (splitNlChars s.data).map String.mk

/-- Python `"\n".join(xs)`. -/
def joinNl : List String → String
  | [] => ""
  | [x] => x
  | x :: xs => x ++ "\n" ++ joinNl xs

/-- Python `"".join(xs)`. -/
def strConcat : List String → String
  | [] => ""
  | x :: xs => x ++ strConcat xs

/-! ## Configuration and environment -/

/-- Modelled from the spec: recognized configuration options
(`ConfigurationOptions` lives in the missing `utils.types` module).  The
numeric options (`api_retry_attempts`, `api_rate_limit_delay`,
`max_concurrent_requests`) govern only the external fetch collaborator and
are not consulted by the core, so they are omitted here. -/
structure Config where
  separate_child_page : Bool
  convert_images_to_base64 : Bool
  parse_child_pages : Bool
deriving Repr, DecidableEq

/-- The defaults installed by `NotionToMarkdown.__init__`. -/
def defaultConfig : Config :=
  { separate_child_page := false
    convert_images_to_base64 := false
    parse_child_pages := true }

/-- Environment of a conversion: the fetch collaborator
(`notion.get_block_children`, external to the core, modelled as a pure map
from a block identifier to the fetched raw blocks), the custom-transformer
registry (`self.custom_transformers`: keys may be bound to `None`, hence
the inner `Option`), and the configuration. -/
structure Env where
  fetch : String → List Val
  transformers : List (String × Option (Val → Val))
  cfg : Config

/-- First binding of a block type in the transformer registry
(`block_type in self.custom_transformers` plus the stored value). -/
def tLookup : List (String × Option (Val → Val)) → String → Option (Option (Val → Val))
  | [], _ => none
  | (k, f) :: rest, ty => if k == ty then some f else tLookup rest ty

/-! ## Modelled Markdown formatter primitives

The `md` module of the repository is not among the provided sources; the
definitions below are modelled from the spec (section 6, "Formatter
collaborator": pure functions returning Markdown fragments for headings,
links, code fences, equations, divider, table, collapsible toggle section,
image embed, and indentation insertion). -/

/-- Modelled from the spec: `md.divider`, a horizontal rule. -/
def mdDivider : String := "---"

/-- Modelled from the spec: `md.link`. -/
def mdLink (text href : String) : String := "[" ++ text ++ "](" ++ href ++ ")"

/-- Modelled from the spec: `md.inline_equation`. -/
def mdInlineEquation (e : String) : String := "$" ++ e ++ "$"

/-- Modelled from the spec: `md.equation`, a display equation. -/
def mdEquation (e : String) : String := "$$\n" ++ e ++ "\n$$"

/-- Modelled from the spec: `md.heading2`. -/
def mdHeading2 (t : String) : String := "## " ++ t

/-- Modelled from the spec: `md.heading3`. -/
def mdHeading3 (t : String) : String := "### " ++ t

/-- Modelled from the spec: `md.code_block`, a fenced code block tagged
with the declared language. -/
def mdCodeBlock (text lang : String) : String :=
  "```" ++ lang ++ "\n" ++ text ++ "\n```"

/-- Modelled from the spec: `md.image`.  The base64 embedding delegates to
an external collaborator; the model emits a standard image reference in
both modes (no claim distinguishes them). -/
def mdImage (caption url : String) (_convertToBase64 : Bool) : String :=
  "!" ++ mdLink caption url

/-- Modelled from the spec: `md.table` over a grid of cell texts. -/
def mdTable (rows : List (List String)) : String :=
  joinNl (rows.map (fun r => "| " ++ joinNl r ++ " |"))

/-- Modelled from the spec: `md.toggle`, a collapsible section combining
the summary text with the accumulated children text. -/
def mdToggle (summary children : String) : String :=
  "<details><summary>" ++ summary ++ "</summary>" ++ children ++ "</details>"

/-- Modelled from the spec: `md.add_tab_space`, leading indentation
proportional to the nesting level. -/
def addTabs (text : String) (n : Nat) : String :=
  strConcat (List.replicate n "\t") ++ text

/-- Modelled from the spec (section 4.1): `annotate_plain_text` (absent
from the provided sources) decorates plain text with the composable style
flags carried by a span's annotation dictionary, in a fixed deterministic
wrapping order; with no active flag the text is returned unchanged. -/
def annotatePlainText (text : String) (ann : Val) : String :=
  let t := if pyTruthy (vGet ann "code") then "`" ++ text ++ "`" else text
  let t := if pyTruthy (vGet ann "bold") then "**" ++ t ++ "**" else t
  let t := if pyTruthy (vGet ann "italic") then "_" ++ t ++ "_" else t
  let t := if pyTruthy (vGet ann "strikethrough") then "~~" ++ t ++ "~~" else t
  let t := if pyTruthy (vGet ann "underline") then "<u>" ++ t ++ "</u>" else t
  t

/-! ## Block renderer values -/

/-- Possible values of `block_to_markdown` as written: normally a string,
but the `synced_block` branch returns the `Dict[str, str]` produced by
`to_markdown_string` (despite the declared `-> str` return type). -/
inductive BRes where
  | str : String → BRes
  | map : DocMap → BRes
deriving Inhabited

/-- Truthiness of a rendered fragment (`block.get("parent")` as a
condition). -/
def bresTruthy : BRes → Bool
  | .str s => !s.isEmpty
  | .map m => !m.isEmpty

/-- String rendering of a fragment where the source interpolates or uses
it as a dictionary key; for the dictionary case Python would interpolate
`str(dict)`, abbreviated as for `pyStr`. -/
def bresShow : BRes → String
  | .str s => s
  | .map _ => "\x7b...\x7d"

/-- The working unit of the assembler, as built by `blocks_to_markdown`:
`{"type": ..., "block_id": ..., "parent": ..., "children": [...]}`. -/
inductive MdBlock where
  | mk (type : String) (block_id : String) (parent : BRes) (children : List MdBlock)

/-- Declared type of a markdown block. -/
def MdBlock.type : MdBlock → String
  | .mk t _ _ _ => t

/-- Identifier of a markdown block. -/
def MdBlock.block_id : MdBlock → String
  | .mk _ b _ _ => b

/-- Own rendered fragment of a markdown block. -/
def MdBlock.parent : MdBlock → BRes
  | .mk _ _ p _ => p

/-- Children of a markdown block. -/
def MdBlock.children : MdBlock → List MdBlock
  | .mk _ _ _ c => c

/-- The list/quote types whose own fragment is emitted compactly
(`["to_do", "bulleted_list_item", "numbered_list_item", "quote"]` in
`to_markdown_string`). -/
def compactTypes : List String :=
  ["to_do", "bulleted_list_item", "numbered_list_item", "quote"]

/-- The quote reflow of `to_markdown_string`:
`"\n".join(f"> {line}" if line.strip() else ">" for line in text.split("\n")).strip()`. -/
def quoteFmt (text : String) : String :=
  pyStrip (joinNl ((pySplitNl text).map
    (fun line => if !(pyStrip line).isEmpty then "> " ++ line else ">")))

/-- The loop of `NotionToMarkdown.to_markdown_string` threading the
accumulated `md_output` map over the block list.  Each iteration performs
the own-fragment phase (lines 226-232 of the source) and then the
children phase (lines 235-280), dispatching on the block type exactly as
the `if`/`elif` chain of the source does. -/
def tmdsGo (cfg : Config) : DocMap → List MdBlock → String → Nat → DocMap
  | m, [], _, _ => m
  | m, MdBlock.mk ty _bid parent children :: rest, id, lvl =>
    let m1 :=
      if bresTruthy parent && !(ty == "toggle" || ty == "child_page") then
        if !(compactTypes.contains ty) then
          dAppend m id ("\n" ++ addTabs (bresShow parent) lvl ++ "\n\n")
        else
          dAppend m id (addTabs (bresShow parent) lvl ++ "\n")
      else m
    let m2 :=
      if children.isEmpty then m1
      else if ty == "synced_block" || ty == "column_list" || ty == "column" then
        let mdStr := tmdsGo cfg [] children id 0
        mdStr.foldl (fun acc kv => dAppend acc kv.1 kv.2) (dEnsure m1 id)
      else if ty == "child_page" then
        let title := bresShow parent
        let mdStr := tmdsGo cfg [] children title 0
        if cfg.separate_child_page then dUpdate m1 mdStr
        else
          let m' := dEnsure m1 id
          if dHasKey mdStr title then
            dAppend m' id ("\n" ++ title ++ "\n" ++ dGetD mdStr title "")
          else m'
      else if ty == "toggle" then
        let tcm := tmdsGo cfg [] children "parent" 0
        dAppend m1 id (mdToggle (bresShow parent) (dGetD tcm "parent" ""))
      else if ty == "quote" then
        let mdStr := tmdsGo cfg [] children id lvl
        let formatted := quoteFmt (dGetD mdStr "parent" "")
        let m' := dEnsure m1 id
        let m'' :=
          if (id != "parent" && dHasKey mdStr "parent") || dHasKey mdStr id then
            dAppend m' id formatted
          else m'
        dAppend m'' id "\n"
      else if ty != "callout" then
        let mdStr := tmdsGo cfg [] children id (lvl + 1)
        let m' := dEnsure m1 id
        if id != "parent" && dHasKey mdStr "parent" then
          dAppend m' id (dGetD mdStr "parent" "")
        else if dHasKey mdStr id then
          dAppend m' id (dGetD mdStr id "")
        else m'
      else m1
    tmdsGo cfg m2 rest id lvl
termination_by _m blocks _id _lvl => sizeOf blocks
decreasing_by all_goals (simp_wf; try omega)

/-- `NotionToMarkdown.to_markdown_string(md_blocks, page_identifier,
nesting_level)`: a fresh empty map threaded over the block list. -/
def toMarkdownString (cfg : Config) (blocks : List MdBlock)
    (id : String := "parent") (lvl : Nat := 0) : DocMap :=
  tmdsGo cfg [] blocks id lvl

/-! ## Block renderer (`block_to_markdown`) -/

/-- The closed enumeration `NotionToMarkdown.VALID_BLOCK_TYPES`. -/
def VALID_BLOCK_TYPES : List String :=
  ["paragraph", "heading_1", "heading_2", "heading_3",
   "bulleted_list_item", "numbered_list_item", "quote",
   "to_do", "toggle", "code", "image", "video", "file",
   "pdf", "bookmark", "callout", "synced_block", "table",
   "column_list", "column", "link_preview", "link_to_page",
   "equation", "divider", "table_of_contents", "child_page",
   "child_database", "breadcrumb", "template", "unsupported",
   "audio", "embed"]

/-- `block_type not in self.VALID_BLOCK_TYPES` made positive: only a
string value can be a member of the list of type names. -/
def validBlockType (v : Val) : Bool :=
  match v with
  | .vstr s => VALID_BLOCK_TYPES.contains s
  | _ => false

/-- The text-bearing types of lines 76-78 of the source. -/
def textBearingTypes : List String :=
  ["paragraph", "heading_1", "heading_2", "heading_3",
   "bulleted_list_item", "numbered_list_item", "quote",
   "to_do", "toggle", "callout"]

/-- The override contract of lines 69-71: a string result stands,
any non-string result collapses to the empty string. -/
def transformerResult (r : Val) : String :=
  match r with
  | .vstr s => s
  | _ => ""

/-- The rich-text loop of lines 80-91 of the source: an equation span
renders as an inline equation; any other span renders its plain text
decorated by its style annotation dictionary and, when a hyperlink target
is present, wrapped as a link. -/
def renderRichText (spans : List Val) : String :=
  spans.foldl
    (fun acc c =>
      acc ++
        (if typeEq (vGet c "type") "equation" then
          mdInlineEquation (pyStr (vGet (vGet c "equation") "expression"))
        else
          let t := annotatePlainText (pyStr (vGetD c "plain_text" (.vstr "")))
            (vGetD c "annotations" (.vdict []))
          if pyTruthy (vGet c "href") then mdLink t (pyStr (vGet c "href")) else t))
    ""

/-- View of a raw fetched block as `to_markdown_string` reads it.
`handle_synced_block` forwards the raw dictionaries returned by the fetch
collaborator straight into `to_markdown_string`, which consults only their
`type`, `parent` and `children` entries; a raw block carries no
`"children"` key, and its `"parent"` entry (a parent pointer object, when
present) is observed only through its truthiness and its string
interpolation. -/
def rawToMdView (v : Val) : MdBlock :=
  .mk (pyStr (vGet v "type")) (pyStr (vGet v "id"))
    (if pyTruthy (vGet v "parent") then .str (pyStr (vGet v "parent")) else .str "")
    []

/-- `NotionToMarkdown.handle_synced_block`: cap the depth counter at 3,
yield the empty string when the source reference is missing, otherwise
fetch the source block's children and hand them to `to_markdown_string`
with `nesting_level = depth + 1` — returning its `Dict[str, str]` result
as is, despite the declared `-> str` return type. -/
def handleSyncedBlock (fetch : String → List Val) (cfg : Config)
    (block : Val) (depth : Nat) : BRes :=
  if depth > 3 then .str ""
  else
    let syncedFrom := vGet (vGetD block "synced_block" (.vdict [])) "synced_from"
    if !pyTruthy syncedFrom || !pyTruthy (vGet syncedFrom "block_id") then .str ""
    else
      .map (tmdsGo cfg []
        ((fetch (pyStr (vGet syncedFrom "block_id"))).map rawToMdView)
        "parent" (depth + 1))

/-- `NotionToMarkdown.block_to_markdown`: the non-dictionary / missing
`type` guard, the closed-enumeration check, the custom-transformer
short-circuit (only a truthy registry value applies), the rich-text pass
for text-bearing types and the per-type `elif` dispatch chain. -/
def blockToMarkdown (env : Env) (block : Val) : Except String BRes :=
  if !isVDict block || !dictHasKey block "type" then .ok (.str "")
  else
    let btype := vGet block "type"
    if !validBlockType btype then .error ("Invalid block type: " ++ pyStr btype)
    else
      let ty := pyStr btype
      match tLookup env.transformers ty with
      | some (some f) => .ok (.str (transformerResult (f block)))
      | _ =>
        let parsedData :=
          if textBearingTypes.contains ty then
            renderRichText (vItems (vGetD (vGetD block ty (.vdict [])) "rich_text" (.vlist [])))
          else ""
        if ty == "code" then
          .ok (.str (mdCodeBlock parsedData
            (pyStr (vGetD (vGet block "code") "language" (.vstr "")))))
        else if ty == "equation" then
          .ok (.str (mdEquation (pyStr (vGet (vGet block "equation") "expression"))))
        else if ty == "divider" then .ok (.str mdDivider)
        else if ty == "image" then
          let img := vGet block "image"
          let caption := strConcat ((vItems (vGetD img "caption" (.vlist []))).map
            (fun t => pyStr (vGet t "plain_text")))
          let url :=
            if typeEq (vGet img "type") "file" then pyStr (vGet (vGet img "file") "url")
            else pyStr (vGet (vGet img "external") "url")
          .ok (.str (mdImage (if caption.isEmpty then "image" else caption) url
            env.cfg.convert_images_to_base64))
        else if ty == "table" then
          let rows := (vItems (vGetD (vGetD block "table" (.vdict [])) "rows" (.vlist []))).map
            (fun row => (vItems (vGetD row "cells" (.vlist []))).map
              (fun cell => strConcat ((vItems cell).map (fun t => pyStr (vGet t "plain_text")))))
          .ok (.str (mdTable rows))
        else if ty == "child_page" then
          if env.cfg.parse_child_pages then
            let title := pyStr (vGetD (vGet block "child_page") "title" (.vstr ""))
            .ok (.str (if !env.cfg.separate_child_page then mdHeading2 title else title))
          else .ok (.str parsedData)
        else if ty == "synced_block" then
          .ok (handleSyncedBlock env.fetch env.cfg block 0)
        else if ty == "child_database" then
          if !env.cfg.parse_child_pages then .ok (.str "")
          else
            .ok (.str (mdHeading3
              (pyStr (vGetD (vGet block "child_database") "title" (.vstr "Child Database")))))
        else if ty == "table_of_contents" then .ok (.str mdDivider)
        else if ty == "audio" then
          let audioBlock := vGet block "audio"
          let caption := strConcat ((vItems (vGetD audioBlock "caption" (.vlist []))).map
            (fun t => pyStr (vGet t "plain_text")))
          let url := pyStr (vGetD (vGetD audioBlock "file" (.vdict [])) "url" (.vstr ""))
          .ok (.str (mdLink (if caption.isEmpty then "audio" else caption) url))
        else if ty == "embed" then
          let embedBlock := vGet block "embed"
          let caption := strConcat ((vItems (vGetD embedBlock "caption" (.vlist []))).map
            (fun t => pyStr (vGet t "plain_text")))
          let url := pyStr (vGetD embedBlock "url" (.vstr ""))
          .ok (.str (mdLink (if caption.isEmpty then "embed" else caption) url))
        else if ty == "link_preview" then
          .ok (.str (mdLink "link_preview"
            (pyStr (vGetD (vGet block "link_preview") "url" (.vstr "")))))
        else if ty == "breadcrumb" then .ok (.str mdDivider)
        else .ok (.str parsedData)

/-! ## Tree builder (`blocks_to_markdown`) -/

/-- Outcome of the tree builder: a value, a raised error, or exhaustion of
the recursion fuel (the Python original recurses unboundedly through the
fetch collaborator, so a cyclic fetch graph never terminates — `fuelOut`
for every fuel witnesses that divergence). -/
inductive RRes (α : Type) where
  | ok : α → RRes α
  | err : String → RRes α
  | fuelOut : RRes α

/-- The pruning condition of lines 306-307 of the source: `unsupported`
blocks always, `child_page` blocks when child-page traversal is off. -/
def skipBlock (cfg : Config) (b : Val) : Bool :=
  typeEq (vGet b "type") "unsupported" ||
    (typeEq (vGet b "type") "child_page" && !cfg.parse_child_pages)

/-- `NotionToMarkdown.blocks_to_markdown` over the raw block list with an
accumulator.  For a block with declared children the fetch target is the
synced-block source when one is named, the block itself otherwise; the
fetched children are recursively built unless the block's type merely has
a key (of any value) in the transformer registry.  The source appends the
node and then mutates its `children` list in place; here the children are
computed first and the node appended once, which yields the same list. -/
def blocksToMarkdown (env : Env) : Nat → List Val → List MdBlock → RRes (List MdBlock)
  | _, [], acc => .ok acc
  | fuel, b :: rest, acc =>
    if skipBlock env.cfg b then blocksToMarkdown env fuel rest acc
    else if pyTruthy (vGet b "has_children") then
      let bid :=
        if typeEq (vGet b "type") "synced_block" &&
            pyTruthy (vGet (vGet b "synced_block") "synced_from") then
          pyStr (vGet (vGet (vGet b "synced_block") "synced_from") "block_id")
        else pyStr (vGet b "id")
      let childBlocks := env.fetch bid
      match blockToMarkdown env b with
      | .error e => .err e
      | .ok parent =>
        let childrenRes : RRes (List MdBlock) :=
          if (tLookup env.transformers (pyStr (vGet b "type"))).isSome then .ok []
          else if h : fuel = 0 then .fuelOut
          else blocksToMarkdown env (fuel - 1) childBlocks []
        match childrenRes with
        | .ok cs =>
          blocksToMarkdown env fuel rest
            (acc ++ [MdBlock.mk (pyStr (vGet b "type")) (pyStr (vGet b "id")) parent cs])
        | .err e => .err e
        | .fuelOut => .fuelOut
    else
      match blockToMarkdown env b with
      | .error e => .err e
      | .ok parent =>
        blocksToMarkdown env fuel rest
          (acc ++ [MdBlock.mk (pyStr (vGet b "type")) (pyStr (vGet b "id")) parent []])
termination_by fuel blocks _acc => (fuel, blocks.length)

/-- The environment of a conversion with no custom transformers, a fetch
collaborator returning no children, and the default configuration. -/
def defaultEnv : Env :=
  { fetch := fun _ => []
    transformers := []
    cfg := defaultConfig }

/-! ## Basic facts about the document map -/

theorem dGet_dSet (m : DocMap) (k v q : String) :
    dGet (dSet m k v) q = if k == q then some v else dGet m q := by
  induction m with
  | nil => simp [dGet, dSet]
  | cons kv rest ih =>
    obtain ⟨a, b⟩ := kv
    by_cases hak : a = k
    · subst hak
      by_cases haq : a = q <;> simp [dGet, dSet, haq]
    · by_cases haq : a = q
      · subst haq
        have : (a == k) = false := by simp [hak]
        simp [dGet, dSet, this, Ne.symm hak]
      · have h1 : (a == k) = false := by simp [hak]
        have h2 : (a == q) = false := by simp [haq]
        simp [dGet, dSet, h1, h2, ih]

theorem dGet_dAppend (m : DocMap) (k s q : String) :
    dGet (dAppend m k s) q = if k == q then some (dGetD m k "" ++ s) else dGet m q := by
  simp [dAppend, dGet_dSet]

theorem dGet_dEnsure (m : DocMap) (k q : String) :
    dGet (dEnsure m k) q = if k == q then some (dGetD m k "") else dGet m q := by
  simp [dEnsure, dGet_dSet]

/-- Monotonicity of document-map text: every binding of the first map is a
prefix of the corresponding binding of the second. -/
def Extends (m₁ m₂ : DocMap) : Prop :=
  ∀ k v, dGet m₁ k = some v → ∃ s, dGet m₂ k = some (v ++ s)

theorem Extends.rfl (m : DocMap) : Extends m m :=
  fun k v h => ⟨"", by simpa [String.append_empty] using h⟩

theorem Extends.trans {m₁ m₂ m₃ : DocMap} (h12 : Extends m₁ m₂) (h23 : Extends m₂ m₃) :
    Extends m₁ m₃ := by
  intro k v h
  obtain ⟨s, hs⟩ := h12 k v h
  obtain ⟨t, ht⟩ := h23 k (v ++ s) hs
  exact ⟨s ++ t, by simpa [String.append_assoc] using ht⟩

theorem extends_dAppend (m : DocMap) (k s : String) : Extends m (dAppend m k s) := by
  intro q v h
  by_cases hk : k = q
  · subst hk
    refine ⟨s, ?_⟩
    simp [dGet_dAppend, dGetD, h]
  · exact ⟨"", by simp [dGet_dAppend, hk, h, String.append_empty]⟩

theorem extends_dEnsure (m : DocMap) (k : String) : Extends m (dEnsure m k) := by
  intro q v h
  by_cases hk : k = q
  · subst hk
    exact ⟨"", by simp [dGet_dEnsure, dGetD, h, String.append_empty]⟩
  · exact ⟨"", by simp [dGet_dEnsure, hk, h, String.append_empty]⟩

theorem extends_foldlAppend (l : List (String × String)) (m : DocMap) :
    Extends m (l.foldl (fun acc kv => dAppend acc kv.1 kv.2) m) := by
  induction l generalizing m with
  | nil => exact Extends.rfl m
  | cons kv rest ih =>
    exact (extends_dAppend m kv.1 kv.2).trans (ih (dAppend m kv.1 kv.2))

theorem extends_dite (m : DocMap) (c : Prop) [inst : Decidable c]
    (a : c → DocMap) (b : ¬c → DocMap)
    (ha : ∀ h, Extends m (a h)) (hb : ∀ h, Extends m (b h)) :
    Extends m (dite c a b) := by
  by_cases h : c
  · simpa [h] using ha h
  · simpa [h] using hb h

/-! ## Concrete blocks used by the claims -/

/-- A rich-text span with explicit all-inactive style annotations. -/
def annAllFalse : Val :=
  .vdict [("bold", .vbool false), ("italic", .vbool false),
          ("strikethrough", .vbool false), ("underline", .vbool false),
          ("code", .vbool false), ("color", .vstr "default")]

/-- A plain text span: no hyperlink (`href` is `None`), no math-expression
marker (span type `"text"`), and no active style flag. -/
def mkSpan (t : String) : Val :=
  .vdict [("type", .vstr "text"), ("plain_text", .vstr t),
          ("annotations", annAllFalse), ("href", .vnull)]

/-- A raw text-bearing block of the given type whose rich text is the given
list of plain spans. -/
def mkTextBlock (ty : String) (ts : List String) : Val :=
  .vdict [("type", .vstr ty), ("id", .vstr "blk"),
          (ty, .vdict [("rich_text", .vlist (ts.map mkSpan))])]

/-- The rich-text pass over plain spans (no equation marker, no hyperlink,
all style flags inactive) concatenates the plain texts unchanged. -/
theorem renderRichText_mkSpans (ts : List String) :
    renderRichText (ts.map mkSpan) = strConcat ts := by
  suffices h : ∀ acc : String,
      (ts.map mkSpan).foldl
        (fun acc c =>
          acc ++
            (if typeEq (vGet c "type") "equation" then
              mdInlineEquation (pyStr (vGet (vGet c "equation") "expression"))
            else
              let t := annotatePlainText (pyStr (vGetD c "plain_text" (.vstr "")))
                (vGetD c "annotations" (.vdict []))
              if pyTruthy (vGet c "href") then mdLink t (pyStr (vGet c "href")) else t))
        acc = acc ++ strConcat ts by
    simpa [renderRichText] using h ""
  induction ts with
  | nil => intro acc; simp [strConcat, String.append_empty]
  | cons t rest ih =>
    intro acc
    simp only [List.map_cons, List.foldl_cons]
    have hstep : (acc ++
        (if typeEq (vGet (mkSpan t) "type") "equation" then
          mdInlineEquation (pyStr (vGet (vGet (mkSpan t) "equation") "expression"))
        else
          let u := annotatePlainText (pyStr (vGetD (mkSpan t) "plain_text" (.vstr "")))
            (vGetD (mkSpan t) "annotations" (.vdict []))
          if pyTruthy (vGet (mkSpan t) "href") then mdLink u (pyStr (vGet (mkSpan t) "href")) else u))
        = acc ++ t := by
      rfl
    rw [hstep, ih (acc ++ t), strConcat, String.append_assoc]

/-- A block whose declared type is outside the closed enumeration is
never pruned by the tree builder (the pruned types `unsupported` and
`child_page` both belong to the enumeration). -/
theorem skip_of_invalid (cfg : Config) (b v : Val) (h3 : vGet b "type" = v)
    (h4 : validBlockType v = false) : skipBlock cfg b = false := by
  cases v with
  | vstr s =>
    have hu : s ≠ "unsupported" := by
      intro e; subst e; simp [validBlockType, VALID_BLOCK_TYPES] at h4
    have hc : s ≠ "child_page" := by
      intro e; subst e; simp [validBlockType, VALID_BLOCK_TYPES] at h4
    simp [skipBlock, h3, typeEq, hu, hc]
  | vnull => simp [skipBlock, h3, typeEq]
  | vbool x => simp [skipBlock, h3, typeEq]
  | vlist x => simp [skipBlock, h3, typeEq]
  | vdict x => simp [skipBlock, h3, typeEq]

/-! ## The claims -/

/-- Claim C1: for every text-bearing block whose rich-text spans all carry
no hyperlink, no math-expression marker and no active style flag,
`block_to_markdown` returns exactly the concatenation of the spans' plain
texts (identity property of the inline text renderer). -/
theorem c1_inline_text_identity (ty : String) (hty : ty ∈ textBearingTypes)
    (ts : List String) :
    blockToMarkdown defaultEnv (mkTextBlock ty ts) = .ok (.str (strConcat ts)) := by
  have key : ∀ t : String, t ∈ textBearingTypes →
      blockToMarkdown defaultEnv (mkTextBlock t ts)
        = .ok (.str (renderRichText (ts.map mkSpan))) := by
    intro t ht
    fin_cases ht <;> rfl
  rw [key ty hty, renderRichText_mkSpans]

/-- Witness for C1: a paragraph block with spans "Hello" and " world"
renders as the plain concatenation "Hello world". -/
theorem c1_inline_text_identity_witness :
    blockToMarkdown defaultEnv (mkTextBlock "paragraph" ["Hello", " world"])
      = .ok (.str "Hello world") := by
  have h := c1_inline_text_identity "paragraph" (by decide) ["Hello", " world"]
  simpa [strConcat] using h

/-- Counterexample for C2: the closed enumeration `VALID_BLOCK_TYPES` does
not have 31 entries as the claim states; it has 32. -/
theorem c2_enumeration_size_counterexample :
    VALID_BLOCK_TYPES.length ≠ 31 ∧ VALID_BLOCK_TYPES.length = 32 := by
  constructor <;> decide

/-- Claim C2 (amended: the enumeration has 32 types, not 31): for every
block whose declared `type` field is present but outside the closed
enumeration, `block_to_markdown` raises the invalid-block-type error
rather than returning a string, and a conversion over a list containing
such a block aborts with that error — no partial block list is
returned. -/
theorem c2_invalid_type_aborts (env : Env) (b v : Val) (rest : List Val) (fuel : Nat)
    (h1 : isVDict b = true) (h2 : dictHasKey b "type" = true)
    (h3 : vGet b "type" = v) (h4 : validBlockType v = false) :
    blockToMarkdown env b = .error ("Invalid block type: " ++ pyStr v)
    ∧ ∃ e, blocksToMarkdown env fuel (b :: rest) [] = .err e := by
  have hbtm : blockToMarkdown env b = .error ("Invalid block type: " ++ pyStr v) := by
    simp [blockToMarkdown, h1, h2, h3, h4]
  refine ⟨hbtm, "Invalid block type: " ++ pyStr v, ?_⟩
  rw [blocksToMarkdown]
  by_cases hhc : pyTruthy (vGet b "has_children") = true <;>
    simp [skip_of_invalid env.cfg b v h3 h4, hhc, hbtm]

/-- Witness for C2: a block of the unknown type "bogus" makes the renderer
error out and the whole builder abort. -/
theorem c2_invalid_type_aborts_witness :
    blockToMarkdown defaultEnv (.vdict [("type", .vstr "bogus")])
      = .error ("Invalid block type: " ++ pyStr (.vstr "bogus"))
    ∧ ∃ e, blocksToMarkdown defaultEnv 0 [.vdict [("type", .vstr "bogus")]] [] = .err e :=
  c2_invalid_type_aborts defaultEnv (.vdict [("type", .vstr "bogus")]) (.vstr "bogus")
    [] 0 rfl rfl rfl (by decide)

/-- Claim C3: for every renderable block whose type has a registered
non-null custom transformer, `block_to_markdown` returns exactly the
transformer's result when it is a string and the empty string otherwise
(`transformerResult`); the result is fully determined by the transformer's
output, so the default per-type rendering is never consulted. -/
theorem c3_override_replaces_default (env : Env) (b : Val) (ty : String) (f : Val → Val)
    (h1 : isVDict b = true) (h2 : dictHasKey b "type" = true)
    (h3 : vGet b "type" = .vstr ty) (h4 : VALID_BLOCK_TYPES.contains ty = true)
    (h5 : tLookup env.transformers ty = some (some f)) :
    blockToMarkdown env b = .ok (.str (transformerResult (f b))) := by
  simp [blockToMarkdown, h1, h2, h3, h4, h5, validBlockType, pyStr]
  exact List.mem_of_elem_eq_true h4

/-- The environment used by the C3 witness: a paragraph transformer that
returns the fixed string "CUSTOM". -/
def c3Env : Env :=
  { fetch := fun _ => []
    transformers := [("paragraph", some (fun _ => .vstr "CUSTOM"))]
    cfg := defaultConfig }

/-- Witness for C3: with a registered paragraph override, a paragraph
block containing the text "Hello" renders to the override's output
"CUSTOM" rather than to its own text. -/
theorem c3_override_replaces_default_witness :
    blockToMarkdown c3Env (mkTextBlock "paragraph" ["Hello"]) = .ok (.str "CUSTOM") := by
  have h := c3_override_replaces_default c3Env (mkTextBlock "paragraph" ["Hello"])
    "paragraph" (fun _ => .vstr "CUSTOM") rfl rfl rfl (by decide) rfl
  simpa [transformerResult] using h

/-- A synced block that names itself as its source and declares children:
the cyclic chain of claim C4. -/
def cycBlock : Val :=
  .vdict [("id", .vstr "A"), ("type", .vstr "synced_block"), ("has_children", .vbool true),
          ("synced_block", .vdict [("synced_from", .vdict [("block_id", .vstr "A")])])]

/-- Environment in which fetching any identifier yields the cyclic block
again (A's children resolve to A). -/
def cycEnv : Env := { fetch := fun _ => [cycBlock], transformers := [], cfg := defaultConfig }

/-- The cyclic block is not pruned by the tree builder. -/
theorem cycSkipFalse : skipBlock cycEnv.cfg cycBlock = false := rfl

/-- The cyclic block declares children. -/
theorem cycHasChildren : pyTruthy (vGet cycBlock "has_children") = true := rfl

/-- Every fetch in the cyclic environment returns the cyclic block. -/
theorem cycFetch (s : String) : cycEnv.fetch s = [cycBlock] := rfl

/-- No transformer is registered in the cyclic environment. -/
theorem cycLookup (s : String) : tLookup cycEnv.transformers s = none := rfl

/-- The renderer resolves the cyclic synced block to an empty document
map — wrapped in `BRes.map`, not the claimed empty string. -/
theorem cycRender : blockToMarkdown cycEnv cycBlock = .ok (.map []) := by
  simp +decide [blockToMarkdown, handleSyncedBlock, cycEnv, cycBlock, rawToMdView, tmdsGo,
    vGet, vGetD, pyTruthy, pyStr, bresTruthy, isVDict, dictHasKey, validBlockType,
    VALID_BLOCK_TYPES, tLookup, textBearingTypes, typeEq]

/-- Claim C4 (code bug): on the self-referencing synced block, (1) the
tree builder recurses through the fetch collaborator without ever
terminating — it runs out of any amount of fuel, the embedding's rendering
of infinite recursion — because the depth counter of
`handle_synced_block` is never threaded through the actual recursion, and
(2) `handle_synced_block` itself returns the `Dict` produced by
`to_markdown_string` (violating its declared `-> str` type), not the empty
string the spec promises at the depth cap. -/
theorem c4_cyclic_synced_divergence :
    (∀ fuel, blocksToMarkdown cycEnv fuel [cycBlock] [] = .fuelOut)
    ∧ handleSyncedBlock cycEnv.fetch cycEnv.cfg cycBlock 0 = .map []
    ∧ blockToMarkdown cycEnv cycBlock = .ok (.map []) := by
  refine ⟨?_, ?_, cycRender⟩
  · intro fuel
    induction fuel with
    | zero =>
      rw [blocksToMarkdown]
      simp [cycSkipFalse, cycHasChildren, cycFetch, cycLookup, cycRender]
    | succ n ih =>
      rw [blocksToMarkdown]
      simp [cycSkipFalse, cycHasChildren, cycFetch, cycLookup, cycRender, ih]
  · simp +decide [handleSyncedBlock, cycEnv, cycBlock, rawToMdView, tmdsGo, vGet, vGetD,
      pyTruthy, pyStr, bresTruthy]

/-- Configuration splitting child pages into separate documents. -/
def cfgSplit : Config := { defaultConfig with separate_child_page := true }

/-- The input tree of claim C5: a root paragraph "Hello" followed by a
child page titled "Title" containing a paragraph "World". -/
def c5Tree : List MdBlock :=
  [MdBlock.mk "paragraph" "b1" (.str "Hello") [],
   MdBlock.mk "child_page" "b2" (.str "Title")
     [MdBlock.mk "paragraph" "b3" (.str "World") []]]

/-- Claim C5: over the same input tree containing a child page with
children, assembling with `separate_child_page = true` produces two
independent map entries (root and the child page's title as its own
document), while `separate_child_page = false` produces a single root
entry in which the title is followed by the child's assembled content. -/
theorem c5_child_page_split_vs_inline :
    toMarkdownString cfgSplit c5Tree "parent" 0
      = [("parent", "\nHello\n\n"), ("Title", "\nWorld\n\n")]
    ∧ toMarkdownString defaultConfig c5Tree "parent" 0
      = [("parent", "\nHello\n\n" ++ ("\nTitle\n" ++ "\nWorld\n\n"))] := by
  constructor <;>
    simp +decide [toMarkdownString, tmdsGo, c5Tree, dAppend, dGetD, dGet, dSet, dEnsure,
      dUpdate, dHasKey, bresTruthy, bresShow, compactTypes, addTabs, strConcat, cfgSplit,
      defaultConfig]

/-- Counterexample for C6: assembling a quote block under the non-root
document identifier "X" does not quote the children's text at all — the
code reflows the recursive result's entry for the default identifier
"parent" (absent here, hence a single bare quote marker), so the entry for
"X" is just ">\n" instead of the quoted child text. -/
theorem c6_quote_nonroot_counterexample :
    toMarkdownString defaultConfig
        [MdBlock.mk "quote" "q1" (.str "") [MdBlock.mk "paragraph" "p1" (.str "hi") []]]
        "X" 0
      = [("X", ">\n")]
    ∧ ([("X", ">\n")] : DocMap) ≠ [("X", ">\n> hi\n>\n>\n")] := by
  constructor
  · simp +decide [toMarkdownString, tmdsGo, dAppend, dGetD, dGet, dSet, dEnsure, dUpdate,
      dHasKey, bresTruthy, bresShow, compactTypes, addTabs, strConcat, quoteFmt, pyStrip,
      pySplitNl, splitNlChars, joinNl, isPyWS, defaultConfig]
  · decide

/-- Claim C6 (amended: the reflowed text is the recursive result's entry
for the default root identifier "parent", so the claim's reading holds for
the root identifier only): for a quote node with children assembled under
the root identifier, the children are recursively assembled under that
identifier with unchanged nesting level, every non-blank line of the
result is prefixed with a quote marker and each blank line replaced by a
bare marker, ends are stripped, and the result plus a trailing newline is
appended to the current document. -/
theorem c6_quote_reflow_at_root (cfg : Config) (m : DocMap) (cs : List MdBlock)
    (bid : String) (lvl : Nat) (hcs : cs ≠ [])
    (hkey : dHasKey (toMarkdownString cfg cs "parent" lvl) "parent" = true) :
    dGet (tmdsGo cfg m [MdBlock.mk "quote" bid (.str "") cs] "parent" lvl) "parent"
      = some (dGetD m "parent" ""
          ++ (quoteFmt (dGetD (toMarkdownString cfg cs "parent" lvl) "parent" "") ++ "\n")) := by
  rw [tmdsGo]
  have hne : cs.isEmpty = false := by
    cases cs with
    | nil => exact absurd rfl hcs
    | cons a l => rfl
  rw [tmdsGo]
  simp only [toMarkdownString] at hkey
  simp +decide [hne, hkey, dGet_dAppend, dGet_dEnsure, dGetD, toMarkdownString,
    String.append_assoc, bresTruthy, bresShow, compactTypes]

/-- Witness for C6: a quote around the paragraph "hi" under the root
identifier yields the quoted text ">\n> hi\n>\n>\n". -/
theorem c6_quote_reflow_at_root_witness :
    dGet (tmdsGo defaultConfig []
        [MdBlock.mk "quote" "q1" (.str "") [MdBlock.mk "paragraph" "p1" (.str "hi") []]]
        "parent" 0) "parent"
      = some ">\n> hi\n>\n>\n" := by
  have h := c6_quote_reflow_at_root defaultConfig []
    [MdBlock.mk "paragraph" "p1" (.str "hi") []] "q1" 0
    (by simp)
    (by simp +decide [toMarkdownString, tmdsGo, dHasKey, dGet, dSet, dAppend, dGetD, dEnsure,
      bresTruthy, bresShow, compactTypes, addTabs, strConcat, defaultConfig])
  rw [h]
  simp +decide [toMarkdownString, tmdsGo, dHasKey, dGet, dSet, dAppend, dGetD, dEnsure,
    bresTruthy, bresShow, compactTypes, addTabs, strConcat, defaultConfig, quoteFmt,
    pyStrip, pySplitNl, splitNlChars, joinNl, isPyWS]

/-- Raw paragraph block "Hello" of the C7 example. -/
def c7RawPara : Val :=
  .vdict [("id", .vstr "b1"), ("type", .vstr "paragraph"),
          ("paragraph", .vdict [("rich_text", .vlist [mkSpan "Hello"])])]

/-- Raw divider block of the C7 example. -/
def c7RawDivider : Val :=
  .vdict [("id", .vstr "b2"), ("type", .vstr "divider")]

/-- The markdown blocks the tree builder produces for the C7 example. -/
def c7MdBlocks : List MdBlock :=
  [MdBlock.mk "paragraph" "b1" (.str "Hello") [],
   MdBlock.mk "divider" "b2" (.str "---") []]

/-- The C7 example pipeline: building the raw root page and assembling it
yields the root entry "\nHello\n\n\n---\n\n". -/
theorem c7Pipeline :
    blocksToMarkdown defaultEnv 1 [c7RawPara, c7RawDivider] [] = .ok c7MdBlocks
    ∧ toMarkdownString defaultConfig c7MdBlocks "parent" 0
      = [("parent", "\nHello\n\n\n---\n\n")] := by
  constructor
  · rw [blocksToMarkdown]
    simp +decide [c7RawPara, c7RawDivider, c7MdBlocks, skipBlock, typeEq, vGet, pyTruthy,
      blockToMarkdown, isVDict, dictHasKey, validBlockType, VALID_BLOCK_TYPES, tLookup,
      textBearingTypes, defaultEnv, pyStr, vGetD, vItems, renderRichText, mkSpan,
      annAllFalse, annotatePlainText, mdDivider, blocksToMarkdown]
  · simp +decide [toMarkdownString, tmdsGo, c7MdBlocks, dAppend, dGetD, dGet, dSet,
      dEnsure, bresTruthy, bresShow, compactTypes, addTabs, strConcat, defaultConfig]

/-- Counterexample for C7: the example root page (paragraph "Hello", then
a divider) assembles to "\nHello\n\n\n---\n\n" — a single leading
newline — not the claimed "\n\nHello\n\n\n---\n\n". -/
theorem c7_example_counterexample :
    toMarkdownString defaultConfig c7MdBlocks "parent" 0
      = [("parent", "\nHello\n\n\n---\n\n")]
    ∧ ("\nHello\n\n\n---\n\n" : String) ≠ "\n\nHello\n\n\n---\n\n" := by
  refine ⟨c7Pipeline.2, ?_⟩
  decide

/-- Claim C7 (amended: the example's root entry is
"\nHello\n\n\n---\n\n", with a single leading newline; ordering and
block-level separation hold as claimed): a node with a non-empty own
fragment whose type is neither toggle nor child_page is appended to the
current document with indentation proportional to the nesting level and a
single trailing newline when its type is a compact list/quote type, and
with a leading newline and a trailing blank line otherwise; the
end-to-end example pipeline yields exactly the corrected root entry. -/
theorem c7_own_fragment_rules (cfg : Config) (m : DocMap) (b : MdBlock)
    (id : String) (lvl : Nat)
    (h1 : bresTruthy b.parent = true) (h2 : b.type ≠ "toggle")
    (h3 : b.type ≠ "child_page") (h4 : b.children = []) :
    (tmdsGo cfg m [b] id lvl
      = if compactTypes.contains b.type then
          dAppend m id (addTabs (bresShow b.parent) lvl ++ "\n")
        else
          dAppend m id ("\n" ++ addTabs (bresShow b.parent) lvl ++ "\n\n"))
    ∧ (blocksToMarkdown defaultEnv 1 [c7RawPara, c7RawDivider] [] = .ok c7MdBlocks
      ∧ toMarkdownString defaultConfig c7MdBlocks "parent" 0
        = [("parent", "\nHello\n\n\n---\n\n")]) := by
  refine ⟨?_, c7Pipeline⟩
  obtain ⟨ty, bid, parent, children⟩ := b
  simp only [MdBlock.type, MdBlock.parent, MdBlock.children] at h1 h2 h3 h4
  subst h4
  rw [tmdsGo, tmdsGo]
  by_cases hcomp : compactTypes.contains ty = true <;>
    simp [h1, h2, h3, hcomp, MdBlock.type, MdBlock.parent]

/-- Witness for C7: a to_do item "task" at nesting level 1 is emitted
compactly with one tab of indentation and a single trailing newline. -/
theorem c7_own_fragment_rules_witness :
    tmdsGo defaultConfig [] [MdBlock.mk "to_do" "t1" (.str "task") []] "parent" 1
      = [("parent", "\ttask\n")] := by
  have h := (c7_own_fragment_rules defaultConfig []
    (MdBlock.mk "to_do" "t1" (.str "task") []) "parent" 1
    (by decide) (by decide) (by decide) rfl).1
  simpa +decide [dAppend, dGetD, dGet, dSet, addTabs, bresShow, strConcat, compactTypes]
    using h

/-- Claim C8: blocks of type `unsupported` — and, when `parse_child_pages`
is false, blocks of type `child_page` — are omitted entirely by the tree
builder: building any block list gives exactly the same result as building
the list with those blocks filtered away, so they are never rendered,
never descended into, and leave nothing in the final output. -/
theorem c8_pruned_blocks_absent (env : Env) (fuel : Nat) (blocks : List Val)
    (acc : List MdBlock) :
    blocksToMarkdown env fuel blocks acc
      = blocksToMarkdown env fuel (blocks.filter (fun b => !skipBlock env.cfg b)) acc := by
  induction blocks generalizing acc with
  | nil => rfl
  | cons b rest ih =>
    by_cases hskip : skipBlock env.cfg b = true
    · rw [blocksToMarkdown]
      simp only [hskip, if_true, List.filter_cons, Bool.not_eq_true', hskip]
      simp only [ih]
      rfl
    · have hskip' : skipBlock env.cfg b = false := by simpa using hskip
      rw [blocksToMarkdown]
      have hfil : (b :: rest).filter (fun b => !skipBlock env.cfg b)
          = b :: rest.filter (fun b => !skipBlock env.cfg b) := by
        simp [List.filter_cons, hskip']
      rw [hfil, blocksToMarkdown]
      simp only [hskip', Bool.false_eq_true, if_false]
      by_cases hhc : pyTruthy (vGet b "has_children") = true
      · simp only [hhc, if_true]
        cases hb : blockToMarkdown env b with
        | error e => rfl
        | ok parent =>
          by_cases hreg : (tLookup env.transformers (pyStr (vGet b "type"))).isSome = true
          · simp only [hreg, if_true, ih]
          · simp only [hreg, Bool.false_eq_true, if_false]
            by_cases hf : fuel = 0
            · simp [hf]
            · simp only [hf, dite_false, dif_neg hf]
              cases hcr : blocksToMarkdown env (fuel - 1) (env.fetch _) [] with
              | ok cs => simp [ih]
              | err e => rfl
              | fuelOut => rfl
      · simp only [hhc, Bool.false_eq_true, if_false]
        cases hb : blockToMarkdown env b with
        | error e => rfl
        | ok parent => simp [ih]

/-- The prior document map of the C9 counterexample: page "T" already
holds emitted content. -/
def c9Prior : DocMap := [("T", "\nAAAA\n\n")]

/-- The C9 counterexample block: a second child page also titled "T". -/
def c9SecondPage : MdBlock :=
  MdBlock.mk "child_page" "b" (.str "T") [MdBlock.mk "paragraph" "p" (.str "B") []]

/-- Counterexample for C9: with `separate_child_page = true`, processing a
split-off child page whose title collides with an identifier that already
holds content replaces that identifier's text via `dict.update` — the
resulting map no longer extends the prior map, so accumulation is not
append-only. -/
theorem c9_update_replaces_counterexample :
    tmdsGo cfgSplit c9Prior [c9SecondPage] "parent" 0 = [("T", "\nB\n\n")]
    ∧ ¬ Extends c9Prior [("T", "\nB\n\n")] := by
  constructor
  · simp +decide [tmdsGo, c9Prior, c9SecondPage, cfgSplit, defaultConfig, dAppend, dGetD,
      dGet, dSet, dEnsure, dUpdate, dHasKey, bresTruthy, bresShow, compactTypes, addTabs,
      strConcat]
  · intro hext
    obtain ⟨s, hs⟩ := hext "T" "\nAAAA\n\n" (by simp [c9Prior, dGet])
    have h1 : ("\nB\n\n" : String) = "\nAAAA\n\n" ++ s := by
      simpa [dGet] using hs
    have h2 := congrArg String.length h1
    have h3 : ("\nB\n\n" : String).length = 4 := rfl
    have h4 : ("\nAAAA\n\n" : String).length = 7 := rfl
    rw [String.length_append, h3, h4] at h2
    omega

/-- Claim C9 (amended: append-only accumulation holds throughout a pass
when `separate_child_page` is false; with splitting enabled, merging a
split-off child page replaces an existing entry with the same identifier
instead of extending it): with splitting disabled, every step of the
assembler only extends the text accumulated so far — the final map binds
every previously bound identifier to a string that begins with its
previous text. -/
theorem c9_append_only_without_split (cfg : Config)
    (hsep : cfg.separate_child_page = false)
    (m : DocMap) (blocks : List MdBlock) (id : String) (lvl : Nat) :
    Extends m (tmdsGo cfg m blocks id lvl) := by
  induction m, blocks, id, lvl using tmdsGo.induct cfg with
  | case1 m id lvl => rw [tmdsGo]; exact Extends.rfl m
  | case2 m ty bid parent children rest id lvl m1 m2 ihc1 ihc2 ihc3 ihc4 ihc5 ihc6 ihrest =>
    have step : tmdsGo cfg m (MdBlock.mk ty bid parent children :: rest) id lvl
        = tmdsGo cfg m2 rest id lvl := by
      rw [tmdsGo]
      rfl
    rw [step]
    have hm1 : Extends m m1 := by
      unfold m1
      split
      · split
        · exact extends_dAppend m id _
        · exact extends_dAppend m id _
      · exact Extends.rfl m
    have hm2 : Extends m1 m2 := by
      unfold m2
      split
      · exact Extends.rfl m1
      · split
        · exact (extends_dEnsure m1 id).trans (extends_foldlAppend _ _)
        · split
          · split
            · rename_i hcfg
              exact absurd hcfg (by simp [hsep])
            · exact extends_dite m1 _ _ _
                (fun _ => (extends_dEnsure m1 id).trans (extends_dAppend _ id _))
                (fun _ => extends_dEnsure m1 id)
          · split
            · exact extends_dAppend m1 id _
            · split
              · refine Extends.trans ?_ (extends_dAppend _ id "\n")
                exact extends_dite m1 _ _ _
                  (fun _ => (extends_dEnsure m1 id).trans (extends_dAppend _ id _))
                  (fun _ => extends_dEnsure m1 id)
              · split
                · refine extends_dite m1 _ _ _
                    (fun _ => (extends_dEnsure m1 id).trans (extends_dAppend _ id _))
                    (fun _ => ?_)
                  exact extends_dite m1 _ _ _
                    (fun _ => (extends_dEnsure m1 id).trans (extends_dAppend _ id _))
                    (fun _ => extends_dEnsure m1 id)
                · exact Extends.rfl m1
    exact (hm1.trans hm2).trans ihrest

/-- Witness for C9: with the default (non-splitting) configuration, the
map that already binds "parent" to "x" is only extended by a further
paragraph block. -/
theorem c9_append_only_without_split_witness :
    Extends [("parent", "x")]
      (tmdsGo defaultConfig [("parent", "x")]
        [MdBlock.mk "paragraph" "p" (.str "hi") []] "parent" 0) :=
  c9_append_only_without_split defaultConfig rfl [("parent", "x")]
    [MdBlock.mk "paragraph" "p" (.str "hi") []] "parent" 0

/-- Claim C10: a block whose type has a key in the transformer registry —
whatever the stored value, including `None` — is built with an empty
children sequence (the tree builder never descends into the fetched
children), while `block_to_markdown` applies the stored override only when
it is truthy: a `None` entry falls through to the default rendering, i.e.
renders exactly as with no registry entry at all. -/
theorem c10_registry_key_suppresses_descent (env : Env) (b : Val)
    (tv : Option (Val → Val)) (r : BRes) (fuel : Nat)
    (hskip : skipBlock env.cfg b = false)
    (hhc : pyTruthy (vGet b "has_children") = true)
    (hreg : tLookup env.transformers (pyStr (vGet b "type")) = some tv)
    (hok : blockToMarkdown env b = .ok r) :
    blocksToMarkdown env fuel [b] []
      = .ok [MdBlock.mk (pyStr (vGet b "type")) (pyStr (vGet b "id")) r []]
    ∧ (tv = none → blockToMarkdown env b
        = blockToMarkdown { env with transformers := [] } b) := by
  constructor
  · rw [blocksToMarkdown]
    have hsome : (tLookup env.transformers (pyStr (vGet b "type"))).isSome = true := by
      rw [hreg]; rfl
    simp [hskip, hhc, hok, hsome]
    rw [blocksToMarkdown]
  · intro htv
    subst htv
    by_cases h1 : (!isVDict b || !dictHasKey b "type") = true
    · simp [blockToMarkdown, h1]
    · by_cases h2 : validBlockType (vGet b "type") = true
      · simp only [blockToMarkdown, h1, h2, hreg]
        rfl
      · simp [blockToMarkdown, h1, h2]

/-- The environment of the C10 witness: the key "paragraph" is present in
the registry but bound to `None`, and fetching returns a child block. -/
def c10Env : Env :=
  { fetch := fun _ => [mkTextBlock "paragraph" ["child"]]
    transformers := [("paragraph", none)]
    cfg := defaultConfig }

/-- The C10 witness block: a paragraph declaring children. -/
def c10Block : Val :=
  .vdict [("type", .vstr "paragraph"), ("id", .vstr "pb"), ("has_children", .vbool true),
          ("paragraph", .vdict [("rich_text", .vlist [mkSpan "Hi"])])]

/-- Witness for C10: with a `None` registry entry for "paragraph", the
declared children are never built (empty children despite a fetch that
returns one block), and rendering falls through to the default text
output "Hi", the same as with an empty registry. -/
theorem c10_registry_key_suppresses_descent_witness :
    blocksToMarkdown c10Env 5 [c10Block] []
      = .ok [MdBlock.mk "paragraph" "pb" (.str "Hi") []]
    ∧ blockToMarkdown c10Env c10Block
      = blockToMarkdown { c10Env with transformers := [] } c10Block := by
  have h := c10_registry_key_suppresses_descent c10Env c10Block none (.str "Hi") 5
    rfl rfl rfl rfl
  exact ⟨h.1, h.2 rfl⟩

end NotionToMd
